import Mathlib

/-!
Shallow embedding of `src/server/server.js` (a realtime room-based chat
server with a class-request feature), together with proofs of the claims
about its specification.

Every HTTP route handler and socket event handler in the source is a
synchronous JavaScript function (it contains no `await` and uses only the
synchronous `fs` API), so under Node's run-to-completion event-loop
semantics each handler executes atomically with respect to every other
handler.  We therefore embed each handler as a pure state-transformer on
the persistent stores, and concurrency questions become questions about
the possible serializations of those transformers.
-/

namespace ChatServer

/-- A persisted chat message.  The source stores arbitrary JSON objects;
the fields below are the ones the server itself reads or writes
(`id`, `room`, `author`) plus the message body. -/
structure Message where
  id : String
  room : String
  author : String
  body : String
deriving DecidableEq, Repr

/-- The chat storage directory: one JSON file (a list of messages) per
room.  `loadChatHistory` returns `[]` when the room's file does not
exist, so a store is a total map from room name to message list with
default `[]`. -/
def ChatStore : Type := String → List Message

/-- The store corresponding to an empty `chat_storage` directory. -/
def ChatStore.init : ChatStore := fun _ => []

/-- `loadChatHistory(room)` from the source: parse the room's file, or
return `[]` when it does not exist. -/
def loadChatHistory (s : ChatStore) (room : String) : List Message :=
  s room

/-- `saveChatHistory(room, messages)` from the source: overwrite the
room's file with `messages`. -/
def saveChatHistory (s : ChatStore) (room : String) (messages : List Message) :
    ChatStore :=
  fun r => if r = room then messages else s r

/-- `saveChatMessage(room, message)` from the source: load the room's
history, push the message onto the end, and write the file back. -/
def saveChatMessage (s : ChatStore) (room : String) (message : Message) :
    ChatStore :=
  saveChatHistory s room (loadChatHistory s room ++ [message])

/-- An inbound `send_message` payload: a message as sent by a client,
before the server assigns an `id`. -/
structure InMessage where
  room : String
  author : String
  body : String
deriving DecidableEq, Repr

/-- The id generator of the `send_message` handler:
`Date.now().toString() + Math.random().toString(36).substr(2, 5)`.
The current millisecond timestamp and the random suffix are inputs of
the embedding. -/
def genId (t : Nat) (suffix : String) : String :=
  toString t ++ suffix

/-- The `send_message` socket handler: assign a fresh id, persist the
populated message with `saveChatMessage`, and return it (the source then
emits it as `receive_message` to the room and `message_sent` to the
sender). -/
def sendMessage (s : ChatStore) (d : InMessage) (t : Nat) (suffix : String) :
    ChatStore × Message :=
  let m : Message :=
    { id := genId t suffix, room := d.room, author := d.author, body := d.body }
  (saveChatMessage s d.room m, m)

/-- The predicate of the `DELETE /api/chat/:room/:messageId` filter:
a stored message is kept when `msg.id !== messageId || msg.author !== author`. -/
def keepMessage (messageId author : String) (msg : Message) : Bool :=
  msg.id != messageId || msg.author != author

/-- The `DELETE /api/chat/:room/:messageId` handler.  Filters the room's
history, answers 403 without writing when nothing was removed, and
otherwise persists the filtered history and answers 200. -/
def deleteMessage (s : ChatStore) (room messageId author : String) :
    ChatStore × Nat :=
  let history := loadChatHistory s room
  let updatedHistory := history.filter (keepMessage messageId author)
  if history.length = updatedHistory.length then
    (s, 403)
  else
    (saveChatHistory s room updatedHistory, 200)

/-- The `GET /api/chat/:room` handler. -/
def getHistory (s : ChatStore) (room : String) : List Message :=
  loadChatHistory s room

/-- The in-memory room registry: `activeRooms` maps a room name to the
set of socket ids in it (the source uses a JS `Set`; we keep a
duplicate-free list, with an absent entry and an empty entry both
rendered as `[]`), and `currentRoom` is each socket's
`socket.currentRoom` field (set by `join_room`, never cleared). -/
structure Registry where
  activeRooms : String → List String
  currentRoom : String → Option String

/-- The registry at server start: `activeRooms = {}` and no socket has
a `currentRoom`. -/
def Registry.init : Registry :=
  { activeRooms := fun _ => [], currentRoom := fun _ => none }

/-- `membersOf(room)`: the room's live-connection set (empty when the
room is unknown). -/
def membersOf (st : Registry) (room : String) : List String :=
  st.activeRooms room

/-- The `join_room` socket handler: set `socket.currentRoom = room` and
add `socket.id` to `activeRooms[room]` (creating the entry when absent).
The source never touches any other room's entry. -/
def joinRoom (st : Registry) (sid room : String) : Registry :=
  { activeRooms := fun r =>
      if r = room then
        if sid ∈ st.activeRooms room then st.activeRooms room
        else st.activeRooms room ++ [sid]
      else st.activeRooms r
    currentRoom := fun s => if s = sid then some room else st.currentRoom s }

/-- The `disconnect` socket handler: when the socket has a current room,
remove `socket.id` from that room's set (deleting the entry when the set
becomes empty, which in this encoding is the same as leaving `[]`). -/
def disconnect (st : Registry) (sid : String) : Registry :=
  match st.currentRoom sid with
  | none => st
  | some room =>
    { activeRooms := fun r =>
        if r = room then (st.activeRooms room).filter (fun x => x ≠ sid)
        else st.activeRooms r
      currentRoom := st.currentRoom }

/-- A participant of a class request, as stored in `participants`.
The JS field `class` is spelled `className` here (`class` is reserved in
Lean). -/
structure Participant where
  studentId : String
  fullName : String
  className : String
deriving DecidableEq, Repr

/-- A class-request record as stored in `class_requests.json`.  The
source stores the caller's payload enriched with the server-assigned
fields; the fields below are the required ones the server reads or
writes. -/
structure ClassRequest where
  id : String
  room : String
  creatorName : String
  creatorStudentId : String
  creatorClass : String
  participants : List Participant
  participantCount : Nat
  createdAt : String
deriving DecidableEq, Repr

/-- The creator payload of `POST /api/class-request` (descriptive
extension fields are not read by the server and are omitted). -/
structure RequestPayload where
  room : String
  creatorName : String
  creatorStudentId : String
  creatorClass : String
deriving DecidableEq, Repr

/-- `class_requests.json`: a JSON object mapping request id to record,
embedded as a total map to `Option ClassRequest`. -/
def RequestTable : Type := String → Option ClassRequest

/-- The table written at first start: `{}`. -/
def RequestTable.empty : RequestTable := fun _ => none

/-- `requests[k] = v` followed by `saveClassRequests`. -/
def RequestTable.set (T : RequestTable) (k : String) (v : ClassRequest) :
    RequestTable :=
  fun r => if r = k then some v else T r

/-- `delete requests[k]` followed by `saveClassRequests`. -/
def RequestTable.del (T : RequestTable) (k : String) : RequestTable :=
  fun r => if r = k then none else T r

/-- The participant the `POST /api/class-request` handler builds from the
creator fields of the payload. -/
def creatorParticipant (p : RequestPayload) : Participant :=
  { studentId := p.creatorStudentId, fullName := p.creatorName,
    className := p.creatorClass }

/-- The `POST /api/class-request` handler: assign
`requestId = Date.now().toString()` (the millisecond timestamp `t` is an
input of the embedding, as is the `createdAt` ISO string), seed
`participants` with the creator and `participantCount = 1`, store the
record under `requestId`, and answer 201 with the record. -/
def createRequest (T : RequestTable) (p : RequestPayload) (t : Nat)
    (createdAt : String) : RequestTable × ClassRequest :=
  let requestId := toString t
  let record : ClassRequest :=
    { id := requestId, room := p.room, creatorName := p.creatorName,
      creatorStudentId := p.creatorStudentId, creatorClass := p.creatorClass,
      participants := [creatorParticipant p], participantCount := 1,
      createdAt := createdAt }
  (T.set requestId record, record)

/-- The `POST /api/class-request/:id/join` handler: 404 when `id` is
absent, 400 when some stored participant already has the requester's
`studentId`, and otherwise push the participant, recompute
`participantCount` as the new list's length, persist, and answer 200
with the updated record. -/
def joinRequest (T : RequestTable) (id : String) (p : Participant) :
    RequestTable × Nat × Option ClassRequest :=
  match T id with
  | none => (T, 404, none)
  | some r =>
    if r.participants.any (fun q => q.studentId == p.studentId) then
      (T, 400, none)
    else
      let updated : ClassRequest :=
        { r with participants := r.participants ++ [p],
                 participantCount := (r.participants ++ [p]).length }
      (T.set id updated, 200, some updated)

/-- The `DELETE /api/class-request/:id` handler: 404 when `id` is
absent, 403 when the requester (`creator` query parameter) differs from
the record's `creatorName`, and otherwise remove the record and answer
200. -/
def deleteRequest (T : RequestTable) (id creator : String) :
    RequestTable × Nat :=
  match T id with
  | none => (T, 404)
  | some r =>
    if r.creatorName != creator then (T, 403)
    else (T.del id, 200)

/-- One durable mutation of the request table, for reasoning about all
reachable tables. -/
inductive ReqOp where
  | create (p : RequestPayload) (t : Nat) (createdAt : String)
  | join (id : String) (p : Participant)
  | del (id : String) (creator : String)
deriving Repr

/-- The table produced by one handler invocation. -/
def applyReqOp (T : RequestTable) : ReqOp → RequestTable
  | .create p t createdAt => (createRequest T p t createdAt).1
  | .join id p => (joinRequest T id p).1
  | .del id creator => (deleteRequest T id creator).1

/-- The table reached from `T` by a sequence of handler invocations. -/
def runReqOps (T : RequestTable) : List ReqOp → RequestTable
  | [] => T
  | op :: ops => runReqOps (applyReqOp T op) ops

/-- The record invariant of the spec's data model: `participantCount`
equals the length of `participants`, the participant built from the
record's creator fields is present, and no two participants share a
`studentId`. -/
def goodRequest (r : ClassRequest) : Prop :=
  r.participantCount = r.participants.length ∧
  ({ studentId := r.creatorStudentId, fullName := r.creatorName,
     className := r.creatorClass } : Participant) ∈ r.participants ∧
  (r.participants.map Participant.studentId).Nodup

instance (r : ClassRequest) : Decidable (goodRequest r) := by
  unfold goodRequest; infer_instance

/-- C1: every durable mutation runs as a single atomic read-modify-write.
Each handler of the source is synchronous (no `await`, only `fs.*Sync`),
so the event loop serializes handlers whole; concurrency therefore means
an arbitrary serialization order.  For two concurrent `submit` calls on
the same room, under either serialization the resulting ChatLog contains
both populated messages and its length is the initial length plus 2:
neither update is lost. -/
theorem submit_no_lost_update (s : ChatStore) (d1 d2 : InMessage)
    (t1 : Nat) (r1 : String) (t2 : Nat) (r2 : String)
    (hroom : d1.room = d2.room) :
    ((sendMessage (sendMessage s d1 t1 r1).1 d2 t2 r2).1 d1.room).length
        = (s d1.room).length + 2 ∧
    ((sendMessage (sendMessage s d2 t2 r2).1 d1 t1 r1).1 d1.room).length
        = (s d1.room).length + 2 ∧
    (sendMessage s d1 t1 r1).2
        ∈ (sendMessage (sendMessage s d1 t1 r1).1 d2 t2 r2).1 d1.room ∧
    (sendMessage (sendMessage s d1 t1 r1).1 d2 t2 r2).2
        ∈ (sendMessage (sendMessage s d1 t1 r1).1 d2 t2 r2).1 d1.room := by
  simp [sendMessage, saveChatMessage, saveChatHistory, loadChatHistory, hroom]

/-- Witness for C1 at a concrete input: two submits to room `"A"` on the
empty store leave a log of length 2. -/
theorem submit_no_lost_update_witness :
    (InMessage.room ⟨"A", "alice", "hi"⟩ = InMessage.room ⟨"A", "bob", "yo"⟩) ∧
    (((sendMessage (sendMessage ChatStore.init ⟨"A", "alice", "hi"⟩ 1 "aaaaa").1
        ⟨"A", "bob", "yo"⟩ 2 "bbbbb").1 "A").length
      = ((ChatStore.init : ChatStore) "A").length + 2 ∧
     ((sendMessage (sendMessage ChatStore.init ⟨"A", "bob", "yo"⟩ 2 "bbbbb").1
        ⟨"A", "alice", "hi"⟩ 1 "aaaaa").1 "A").length
      = ((ChatStore.init : ChatStore) "A").length + 2 ∧
     (sendMessage ChatStore.init ⟨"A", "alice", "hi"⟩ 1 "aaaaa").2
        ∈ (sendMessage (sendMessage ChatStore.init ⟨"A", "alice", "hi"⟩ 1 "aaaaa").1
            ⟨"A", "bob", "yo"⟩ 2 "bbbbb").1 "A" ∧
     (sendMessage (sendMessage ChatStore.init ⟨"A", "alice", "hi"⟩ 1 "aaaaa").1
        ⟨"A", "bob", "yo"⟩ 2 "bbbbb").2
        ∈ (sendMessage (sendMessage ChatStore.init ⟨"A", "alice", "hi"⟩ 1 "aaaaa").1
            ⟨"A", "bob", "yo"⟩ 2 "bbbbb").1 "A") :=
  ⟨rfl, submit_no_lost_update ChatStore.init ⟨"A", "alice", "hi"⟩ ⟨"A", "bob", "yo"⟩
      1 "aaaaa" 2 "bbbbb" rfl⟩

/-- C2 is violated by the code: after socket `"c"` joins room `"A"` and
then room `"B"`, the `join_room` handler has not removed `"c"` from room
`"A"`'s membership set (it only overwrites `socket.currentRoom`), so the
socket sits in two membership sets at once; a subsequent disconnect
cleans only the current room `"B"`, leaving the dead socket in room
`"A"`'s set forever. -/
theorem joinRoom_retains_previous_membership :
    membersOf (joinRoom (joinRoom Registry.init "c" "A") "c" "B") "A" = ["c"] ∧
    membersOf (joinRoom (joinRoom Registry.init "c" "A") "c" "B") "B" = ["c"] ∧
    (joinRoom (joinRoom Registry.init "c" "A") "c" "B").currentRoom "c" = some "B" ∧
    membersOf (disconnect (joinRoom (joinRoom Registry.init "c" "A") "c" "B") "c") "A"
      = ["c"] ∧
    membersOf (disconnect (joinRoom (joinRoom Registry.init "c" "A") "c" "B") "c") "B"
      = [] := by
  decide

/-- C3 is violated by the code: two `POST /api/class-request` calls in
the same millisecond (`Date.now() = 5` for both) receive the same id
`"5"`, and the second create overwrites the first, so the first record is
present under no key of the resulting table. -/
theorem createRequest_same_millisecond_loses_record :
    (createRequest RequestTable.empty ⟨"A", "alice", "s1", "10A"⟩ 5 "d1").2.id
      = (createRequest (createRequest RequestTable.empty ⟨"A", "alice", "s1", "10A"⟩ 5 "d1").1
          ⟨"A", "bob", "s2", "10B"⟩ 5 "d2").2.id ∧
    ∀ k, (createRequest (createRequest RequestTable.empty ⟨"A", "alice", "s1", "10A"⟩ 5 "d1").1
          ⟨"A", "bob", "s2", "10B"⟩ 5 "d2").1 k
        ≠ some (createRequest RequestTable.empty ⟨"A", "alice", "s1", "10A"⟩ 5 "d1").2 := by
  refine ⟨rfl, ?_⟩
  intro k
  by_cases h : k = toString 5
  · subst h
    simp [createRequest, RequestTable.set]
  · simp [createRequest, RequestTable.set, RequestTable.empty, h]

/-- The record returned (and stored) by `createRequest` satisfies the
data-model invariant. -/
theorem goodRequest_createRequest (T : RequestTable) (p : RequestPayload)
    (t : Nat) (createdAt : String) :
    goodRequest (createRequest T p t createdAt).2 := by
  simp [createRequest, goodRequest, creatorParticipant]

/-- One handler invocation preserves the data-model invariant for every
stored record. -/
theorem applyReqOp_goodRequest (T : RequestTable) (op : ReqOp)
    (h : ∀ k r, T k = some r → goodRequest r) :
    ∀ k r, applyReqOp T op k = some r → goodRequest r := by
  intro k r hk
  cases op with
  | create p t createdAt =>
    unfold applyReqOp createRequest RequestTable.set at hk
    simp only at hk
    split at hk
    · injection hk with hk
      subst hk
      exact goodRequest_createRequest T p t createdAt
    · exact h k r hk
  | join id p =>
    unfold applyReqOp joinRequest at hk
    simp only at hk
    cases hT : T id with
    | none => rw [hT] at hk; exact h k r hk
    | some r0 =>
      rw [hT] at hk
      simp only at hk
      by_cases hdup : r0.participants.any (fun q => q.studentId == p.studentId) = true
      · rw [if_pos hdup] at hk
        exact h k r hk
      · rw [if_neg hdup] at hk
        simp only [RequestTable.set] at hk
        split at hk
        · injection hk with hk
          subst hk
          obtain ⟨hc, hm, hn⟩ := h id r0 hT
          simp only [List.any_eq_true, beq_iff_eq, not_exists, not_and] at hdup
          refine ⟨by simp, List.mem_append_left _ hm, ?_⟩
          simp only [List.map_append, List.map_cons, List.map_nil]
          rw [List.nodup_append]
          refine ⟨hn, List.nodup_singleton _, ?_⟩
          intro a ha hb
          simp only [List.mem_singleton] at hb
          subst hb
          obtain ⟨q, hq, hqa⟩ := List.mem_map.mp ha
          exact hdup q hq hqa
        · exact h k r hk
  | del id creator =>
    unfold applyReqOp deleteRequest at hk
    simp only at hk
    cases hT : T id with
    | none => rw [hT] at hk; exact h k r hk
    | some r0 =>
      rw [hT] at hk
      simp only at hk
      by_cases hc : (r0.creatorName != creator) = true
      · rw [if_pos hc] at hk
        exact h k r hk
      · rw [if_neg hc] at hk
        simp only [RequestTable.del] at hk
        split at hk
        · exact Option.noConfusion hk
        · exact h k r hk

/-- Every table reachable by handler invocations from an
invariant-respecting table respects the data-model invariant. -/
theorem runReqOps_goodRequest (ops : List ReqOp) (T : RequestTable)
    (h : ∀ k r, T k = some r → goodRequest r) :
    ∀ k r, runReqOps T ops k = some r → goodRequest r := by
  induction ops generalizing T with
  | nil => exact h
  | cons op ops ih => exact ih (applyReqOp T op) (applyReqOp_goodRequest T op h)

/-- C4: every ClassRequest reachable by any sequence of create, join
(and delete) operations from the empty table satisfies the data-model
invariant: `participantCount` equals the length of `participants`, the
participant built from the record's creator fields is present (seeded at
creation), and no two participants share a `studentId`. -/
theorem classRequest_invariant (ops : List ReqOp) (k : String)
    (r : ClassRequest) (h : runReqOps RequestTable.empty ops k = some r) :
    goodRequest r :=
  runReqOps_goodRequest ops RequestTable.empty
    (fun _ _ hk => Option.noConfusion hk) k r h

/-- Witness for C4 at a concrete input: one create followed by one join
yields a record with two distinct participants, the creator among them,
and `participantCount = 2`. -/
theorem classRequest_invariant_witness :
    runReqOps RequestTable.empty
        [ReqOp.create ⟨"A", "bob", "s1", "10A"⟩ 7 "d",
         ReqOp.join "7" ⟨"s2", "ann", "10B"⟩] "7"
      = some { id := "7", room := "A", creatorName := "bob",
               creatorStudentId := "s1", creatorClass := "10A",
               participants := [⟨"s1", "bob", "10A"⟩, ⟨"s2", "ann", "10B"⟩],
               participantCount := 2, createdAt := "d" } ∧
    goodRequest { id := "7", room := "A", creatorName := "bob",
                  creatorStudentId := "s1", creatorClass := "10A",
                  participants := [⟨"s1", "bob", "10A"⟩, ⟨"s2", "ann", "10B"⟩],
                  participantCount := 2, createdAt := "d" } :=
  ⟨by decide,
   classRequest_invariant
     [ReqOp.create ⟨"A", "bob", "s1", "10A"⟩ 7 "d",
      ReqOp.join "7" ⟨"s2", "ann", "10B"⟩] "7" _ (by decide)⟩

/-- One handler invocation preserves key–record coherence: every stored
record's `id` field equals its key. -/
theorem applyReqOp_id_coherent (T : RequestTable) (op : ReqOp)
    (h : ∀ k r, T k = some r → r.id = k) :
    ∀ k r, applyReqOp T op k = some r → r.id = k := by
  intro k r hk
  cases op with
  | create p t createdAt =>
    unfold applyReqOp createRequest RequestTable.set at hk
    simp only at hk
    split at hk
    next hkey =>
      injection hk with hk
      subst hk
      exact hkey.symm
    next => exact h k r hk
  | join id p =>
    unfold applyReqOp joinRequest at hk
    simp only at hk
    cases hT : T id with
    | none => rw [hT] at hk; exact h k r hk
    | some r0 =>
      rw [hT] at hk
      simp only at hk
      by_cases hdup : r0.participants.any (fun q => q.studentId == p.studentId) = true
      · rw [if_pos hdup] at hk
        exact h k r hk
      · rw [if_neg hdup] at hk
        simp only [RequestTable.set] at hk
        split at hk
        next hkey =>
          injection hk with hk
          subst hk
          rw [hkey]
          exact h id r0 hT
        next => exact h k r hk
  | del id creator =>
    unfold applyReqOp deleteRequest at hk
    simp only at hk
    cases hT : T id with
    | none => rw [hT] at hk; exact h k r hk
    | some r0 =>
      rw [hT] at hk
      simp only at hk
      by_cases hc : (r0.creatorName != creator) = true
      · rw [if_pos hc] at hk
        exact h k r hk
      · rw [if_neg hc] at hk
        simp only [RequestTable.del] at hk
        split at hk
        · exact Option.noConfusion hk
        · exact h k r hk

/-- Every table reachable by handler invocations from a key-coherent
table is key-coherent. -/
theorem runReqOps_id_coherent (ops : List ReqOp) (T : RequestTable)
    (h : ∀ k r, T k = some r → r.id = k) :
    ∀ k r, runReqOps T ops k = some r → r.id = k := by
  induction ops generalizing T with
  | nil => exact h
  | cons op ops ih => exact ih (applyReqOp T op) (applyReqOp_id_coherent T op h)

/-- C10: key–record coherence.  After any sequence of create, join and
delete handler invocations starting from the empty table, every stored
ClassRequest has its `id` field equal to the key under which it is
stored. -/
theorem requestTable_key_coherence (ops : List ReqOp) (k : String)
    (r : ClassRequest) (h : runReqOps RequestTable.empty ops k = some r) :
    r.id = k :=
  runReqOps_id_coherent ops RequestTable.empty
    (fun _ _ hk => Option.noConfusion hk) k r h

/-- Witness for C10 at a concrete input: after one create at timestamp
11, the record stored under key `"11"` carries id `"11"`. -/
theorem requestTable_key_coherence_witness :
    runReqOps RequestTable.empty [ReqOp.create ⟨"B", "eva", "s9", "12C"⟩ 11 "d0"] "11"
      = some { id := "11", room := "B", creatorName := "eva",
               creatorStudentId := "s9", creatorClass := "12C",
               participants := [⟨"s9", "eva", "12C"⟩],
               participantCount := 1, createdAt := "d0" } ∧
    ClassRequest.id { id := "11", room := "B", creatorName := "eva",
                      creatorStudentId := "s9", creatorClass := "12C",
                      participants := [⟨"s9", "eva", "12C"⟩],
                      participantCount := 1, createdAt := "d0" } = "11" :=
  ⟨by decide,
   requestTable_key_coherence
     [ReqOp.create ⟨"B", "eva", "s9", "12C"⟩ 11 "d0"] "11" _ (by decide)⟩

/-- The keep-predicate of the delete filter holds exactly when the
message does not match both the target id and the target author. -/
theorem keepMessage_true_iff (mid author : String) (m : Message) :
    keepMessage mid author m = true ↔ ¬(m.id = mid ∧ m.author = author) := by
  simp only [keepMessage, Bool.or_eq_true, bne_iff_ne, ne_eq, not_and_or]

/-- Boolean form of the keep-predicate: it is the negation of the
match-predicate. -/
theorem keepMessage_eq_not_match (mid author : String) (m : Message) :
    keepMessage mid author m = !(m.id == mid && m.author == author) := by
  simp only [keepMessage, bne, Bool.not_and]

/-- A list has the same length as its filtering exactly when the filter
keeps every element. -/
theorem length_eq_length_filter_iff (l : List Message) (p : Message → Bool) :
    l.length = (l.filter p).length ↔ ∀ m ∈ l, p m = true := by
  constructor
  · intro h
    rw [← List.filter_eq_self]
    exact (List.filter_sublist l).eq_of_length h.symm
  · intro h
    rw [List.filter_eq_self.mpr h]

/-- Computation rule: when the filter removes nothing, the delete
handler answers 403 and leaves the store untouched. -/
theorem deleteMessage_eq_of_len_eq (s : ChatStore) (room mid author : String)
    (hc : (s room).length = ((s room).filter (keepMessage mid author)).length) :
    deleteMessage s room mid author = (s, 403) := by
  unfold deleteMessage
  simp only [loadChatHistory]
  rw [if_pos hc]

/-- Computation rule: when the filter removes something, the delete
handler persists the filtered history and answers 200. -/
theorem deleteMessage_eq_of_len_ne (s : ChatStore) (room mid author : String)
    (hc : ¬(s room).length = ((s room).filter (keepMessage mid author)).length) :
    deleteMessage s room mid author
      = (saveChatHistory s room ((s room).filter (keepMessage mid author)), 200) := by
  unfold deleteMessage
  simp only [loadChatHistory]
  rw [if_neg hc]

/-- C5 is violated by the code: on a log holding two messages that both
match `(messageId, author) = ("m", "a")`, the delete handler removes
both (its `filter` keeps only non-matching messages), whereas the claim
says the later matching message must survive. -/
theorem deleteMessage_not_only_first :
    ((deleteMessage (saveChatHistory ChatStore.init "R"
        [⟨"m", "R", "a", "1"⟩, ⟨"m", "R", "a", "2"⟩]) "R" "m" "a").1 "R" = []) ∧
    ((deleteMessage (saveChatHistory ChatStore.init "R"
        [⟨"m", "R", "a", "1"⟩, ⟨"m", "R", "a", "2"⟩]) "R" "m" "a").1 "R"
      ≠ [⟨"m", "R", "a", "2"⟩]) := by
  decide

/-- C5 amended: a successful `deleteMessage(room, messageId, author)`
removes every message of the room's ChatLog matching both `messageId`
and `author` (not only the first), keeping the remaining messages in
their original order. -/
theorem deleteMessage_removes_every_match (s : ChatStore)
    (room mid author : String) (h : (deleteMessage s room mid author).2 = 200) :
    (deleteMessage s room mid author).1 room
      = (s room).filter (fun m => !(m.id == mid && m.author == author)) := by
  have hfilter : (s room).filter (keepMessage mid author)
      = (s room).filter (fun m => !(m.id == mid && m.author == author)) :=
    List.filter_congr (fun m _ => keepMessage_eq_not_match mid author m)
  by_cases hc : (s room).length = ((s room).filter (keepMessage mid author)).length
  · rw [deleteMessage_eq_of_len_eq s room mid author hc] at h
    simp at h
  · rw [deleteMessage_eq_of_len_ne s room mid author hc]
    simp [saveChatHistory, hfilter]

/-- Witness for the amended C5 at a concrete input: deleting the only
matching message succeeds and leaves exactly the filtered log. -/
theorem deleteMessage_removes_every_match_witness :
    (deleteMessage (saveChatHistory ChatStore.init "R" [⟨"m", "R", "a", "1"⟩])
        "R" "m" "a").2 = 200 ∧
    (deleteMessage (saveChatHistory ChatStore.init "R" [⟨"m", "R", "a", "1"⟩])
        "R" "m" "a").1 "R"
      = ((saveChatHistory ChatStore.init "R" [⟨"m", "R", "a", "1"⟩]) "R").filter
          (fun m => !(m.id == "m" && m.author == "a")) :=
  ⟨by decide,
   deleteMessage_removes_every_match
     (saveChatHistory ChatStore.init "R" [⟨"m", "R", "a", "1"⟩]) "R" "m" "a"
     (by decide)⟩

/-- C6: the delete handler answers 403 exactly when no message of the
room's log matches both `messageId` and `author` (not-found and
not-owned are the same observable outcome); on 403 the store is
unchanged; and after a successful delete, repeating the same call
answers 403. -/
theorem deleteMessage_forbidden_iff (s : ChatStore) (room mid author : String) :
    ((deleteMessage s room mid author).2 = 403 ↔
      ¬ ∃ m ∈ s room, m.id = mid ∧ m.author = author) ∧
    ((deleteMessage s room mid author).2 = 403 →
      (deleteMessage s room mid author).1 = s) ∧
    ((deleteMessage s room mid author).2 = 200 →
      (deleteMessage (deleteMessage s room mid author).1 room mid author).2
        = 403) := by
  have hiff : (s room).length = ((s room).filter (keepMessage mid author)).length
      ↔ ¬ ∃ m ∈ s room, m.id = mid ∧ m.author = author := by
    rw [length_eq_length_filter_iff]
    constructor
    · rintro h ⟨m, hm, hmatch⟩
      exact (keepMessage_true_iff mid author m).mp (h m hm) hmatch
    · intro h m hm
      exact (keepMessage_true_iff mid author m).mpr (fun hmatch => h ⟨m, hm, hmatch⟩)
  refine ⟨?_, ?_, ?_⟩
  · by_cases hc : (s room).length
        = ((s room).filter (keepMessage mid author)).length
    · rw [deleteMessage_eq_of_len_eq s room mid author hc]
      simpa using hiff.mp hc
    · rw [deleteMessage_eq_of_len_ne s room mid author hc]
      constructor
      · intro h
        simp at h
      · intro hno
        exact absurd (hiff.mpr hno) hc
  · intro h403
    by_cases hc : (s room).length
        = ((s room).filter (keepMessage mid author)).length
    · rw [deleteMessage_eq_of_len_eq s room mid author hc]
    · rw [deleteMessage_eq_of_len_ne s room mid author hc] at h403
      simp at h403
  · intro h200
    by_cases hc : (s room).length
        = ((s room).filter (keepMessage mid author)).length
    · rw [deleteMessage_eq_of_len_eq s room mid author hc] at h200
      simp at h200
    · rw [deleteMessage_eq_of_len_ne s room mid author hc]
      have hroom : (saveChatHistory s room
            ((s room).filter (keepMessage mid author))) room
          = (s room).filter (keepMessage mid author) := by
        simp [saveChatHistory]
      have hlen : ((saveChatHistory s room
            ((s room).filter (keepMessage mid author))) room).length
          = (((saveChatHistory s room
            ((s room).filter (keepMessage mid author))) room).filter
              (keepMessage mid author)).length := by
        rw [hroom]
        exact (length_eq_length_filter_iff _ _).mpr
          (fun m hm => (List.mem_filter.mp hm).2)
      rw [deleteMessage_eq_of_len_eq _ room mid author hlen]

/-- Witness for C6 at concrete inputs: deleting a message whose author
does not match answers 403, and a repeated delete after a success
answers 403. -/
theorem deleteMessage_forbidden_iff_witness :
    (deleteMessage (saveChatHistory ChatStore.init "R" [⟨"x", "R", "b", "1"⟩])
        "R" "x" "a").2 = 403 ∧
    (deleteMessage
        (deleteMessage (saveChatHistory ChatStore.init "R" [⟨"x", "R", "b", "1"⟩])
          "R" "x" "b").1 "R" "x" "b").2 = 403 :=
  ⟨(deleteMessage_forbidden_iff
      (saveChatHistory ChatStore.init "R" [⟨"x", "R", "b", "1"⟩])
      "R" "x" "a").1.mpr (by decide),
   (deleteMessage_forbidden_iff
      (saveChatHistory ChatStore.init "R" [⟨"x", "R", "b", "1"⟩])
      "R" "x" "b").2.2 (by decide)⟩

/-- C7: the join handler answers 404 and leaves the table unchanged when
the id is absent; answers 400 (conflict) and leaves the table unchanged
when the requester's `studentId` already appears among the record's
participants; on success appends the participant, recomputes
`participantCount`, stores and returns the updated record; and joining a
freshly created request with the creator's own `studentId` conflicts. -/
theorem joinRequest_spec (T : RequestTable) (id : String) (p : Participant) :
    (T id = none → joinRequest T id p = (T, 404, none)) ∧
    (∀ r, T id = some r → (∃ q ∈ r.participants, q.studentId = p.studentId) →
      joinRequest T id p = (T, 400, none)) ∧
    (∀ r, T id = some r → (∀ q ∈ r.participants, q.studentId ≠ p.studentId) →
      joinRequest T id p =
        (T.set id { r with participants := r.participants ++ [p],
                           participantCount := r.participants.length + 1 },
         200,
         some { r with participants := r.participants ++ [p],
                       participantCount := r.participants.length + 1 })) ∧
    (∀ (S : RequestTable) (pay : RequestPayload) (t : Nat) (c : String)
        (q : Participant), q.studentId = pay.creatorStudentId →
      joinRequest (createRequest S pay t c).1 (createRequest S pay t c).2.id q
        = ((createRequest S pay t c).1, 400, none)) := by
  refine ⟨?_, ?_, ?_, ?_⟩
  · intro h
    unfold joinRequest
    rw [h]
  · intro r hr hdup
    have hany : (r.participants.any fun q => q.studentId == p.studentId)
        = true := by
      simp only [List.any_eq_true, beq_iff_eq]
      exact hdup
    unfold joinRequest
    rw [hr]
    simp only [hany, if_true]
  · intro r hr hnodup
    have hany : (r.participants.any fun q => q.studentId == p.studentId)
        = false := by
      simp only [List.any_eq_false, beq_iff_eq]
      exact hnodup
    unfold joinRequest
    rw [hr]
    simp only [hany, Bool.false_eq_true, if_false]
    simp [List.length_append]
  · intro S pay t c q hq
    unfold joinRequest createRequest RequestTable.set
    simp [creatorParticipant, hq]

/-- Witness for C7 at concrete inputs: joining an absent id answers 404,
and joining a fresh request with the creator's own student id answers
400. -/
theorem joinRequest_spec_witness :
    ((RequestTable.empty : RequestTable) "9" = none ∧
     joinRequest RequestTable.empty "9" ⟨"s2", "x", "c"⟩
       = (RequestTable.empty, 404, none)) ∧
    joinRequest (createRequest RequestTable.empty ⟨"A", "bob", "s1", "10A"⟩ 3 "d").1
        (createRequest RequestTable.empty ⟨"A", "bob", "s1", "10A"⟩ 3 "d").2.id
        ⟨"s1", "eve", "10C"⟩
      = ((createRequest RequestTable.empty ⟨"A", "bob", "s1", "10A"⟩ 3 "d").1,
         400, none) :=
  ⟨⟨rfl, (joinRequest_spec RequestTable.empty "9" ⟨"s2", "x", "c"⟩).1 rfl⟩,
   (joinRequest_spec RequestTable.empty "9" ⟨"s2", "x", "c"⟩).2.2.2
     RequestTable.empty ⟨"A", "bob", "s1", "10A"⟩ 3 "d" ⟨"s1", "eve", "10C"⟩ rfl⟩

/-- C8: the class-request delete handler answers 404 and leaves the
table unchanged when the id is absent, 403 and leaves the table
unchanged when the requester is not the record's creator, and on success
removes the record from the table. -/
theorem deleteRequest_spec (T : RequestTable) (id creator : String) :
    (T id = none → deleteRequest T id creator = (T, 404)) ∧
    (∀ r, T id = some r → r.creatorName ≠ creator →
      deleteRequest T id creator = (T, 403)) ∧
    (∀ r, T id = some r → r.creatorName = creator →
      deleteRequest T id creator = (T.del id, 200) ∧
      RequestTable.del T id id = none) := by
  refine ⟨?_, ?_, ?_⟩
  · intro h
    unfold deleteRequest
    rw [h]
  · intro r hr hne
    have hb : (r.creatorName != creator) = true := bne_iff_ne.mpr hne
    unfold deleteRequest
    rw [hr]
    simp only [hb, if_true]
  · intro r hr heq
    have hb : (r.creatorName != creator) = false := by
      simp [bne, heq]
    constructor
    · unfold deleteRequest
      rw [hr]
      simp only [hb, Bool.false_eq_true, if_false]
    · simp [RequestTable.del]

/-- Witness for C8 at concrete inputs: deleting an absent id answers
404, and a non-creator's delete answers 403 leaving the table unchanged. -/
theorem deleteRequest_spec_witness :
    ((RequestTable.empty : RequestTable) "1" = none ∧
     deleteRequest RequestTable.empty "1" "bob" = (RequestTable.empty, 404)) ∧
    deleteRequest (createRequest RequestTable.empty ⟨"A", "bob", "s1", "10A"⟩ 3 "d").1
        "3" "carol"
      = ((createRequest RequestTable.empty ⟨"A", "bob", "s1", "10A"⟩ 3 "d").1,
         403) :=
  ⟨⟨rfl, (deleteRequest_spec RequestTable.empty "1" "bob").1 rfl⟩,
   (deleteRequest_spec
      (createRequest RequestTable.empty ⟨"A", "bob", "s1", "10A"⟩ 3 "d").1
      "3" "carol").2.1
     (createRequest RequestTable.empty ⟨"A", "bob", "s1", "10A"⟩ 3 "d").2
     rfl (by decide)⟩

/-- C9: `submit` followed by `getHistory` round-trips: after a
`send_message`, the room's log equals the previous log with the
populated message appended; the populated message is the input plus the
server-assigned id; when the assigned id is fresh, it identifies the new
message uniquely in the log; and a room with no history yields the empty
sequence. -/
theorem submit_getHistory_roundtrip (s : ChatStore) (d : InMessage)
    (t : Nat) (suffix : String) :
    getHistory (sendMessage s d t suffix).1 d.room
      = getHistory s d.room ++ [(sendMessage s d t suffix).2] ∧
    (sendMessage s d t suffix).2
      = { id := genId t suffix, room := d.room, author := d.author,
          body := d.body } ∧
    (genId t suffix ∉ (getHistory s d.room).map Message.id →
      ((getHistory (sendMessage s d t suffix).1 d.room).filter
          (fun m => m.id == genId t suffix)).length = 1) ∧
    (∀ room, getHistory ChatStore.init room = []) := by
  have hlog : getHistory (sendMessage s d t suffix).1 d.room
      = getHistory s d.room ++ [(sendMessage s d t suffix).2] := by
    simp [getHistory, sendMessage, saveChatMessage, saveChatHistory,
      loadChatHistory]
  refine ⟨hlog, rfl, ?_, fun room => rfl⟩
  intro hfresh
  rw [hlog, List.filter_append]
  have h1 : (getHistory s d.room).filter (fun m => m.id == genId t suffix)
      = [] := by
    rw [List.filter_eq_nil_iff]
    intro m hm
    simp only [beq_iff_eq]
    intro hid
    exact hfresh (List.mem_map.mpr ⟨m, hm, hid⟩)
  rw [h1]
  simp [sendMessage]

/-- Witness for C9 at a concrete input: submitting to room `"A"` of the
empty store with timestamp 1 and suffix `"abcde"` yields a log whose
unique member carries id `"1abcde"`. -/
theorem submit_getHistory_roundtrip_witness :
    genId 1 "abcde" ∉ ((getHistory ChatStore.init "A").map Message.id) ∧
    ((getHistory (sendMessage ChatStore.init ⟨"A", "alice", "hi"⟩ 1 "abcde").1
        "A").filter (fun m => m.id == genId 1 "abcde")).length = 1 :=
  ⟨by decide,
   (submit_getHistory_roundtrip ChatStore.init ⟨"A", "alice", "hi"⟩ 1
      "abcde").2.2.1 (by decide)⟩

end ChatServer
